import Mathlib

/-!
Verification development for the cbc.block lazy block-linear-algebra layer.

The Lean definitions below are a shallow embedding of the Python sources:

* `block/block_compose.py` — `block_compose` (multiplicative chains),
  `block_sub`, `block_add`;
* `block/block_mat.py` — `block_mat.matvec`, `block_mat.transpmult`;
* `block/__init__.py` — the methods injected into `dolfin.Matrix`;
* `block/algebraic/trilinos/Epetra.py` — `matrix_op` and `_collapse`.

Machine reals/floats of the numerical backend are replaced by `Int` entries;
concrete backend vectors are `List Int` and concrete backend matrices are
dense `List (List Int)`.  Python's `NotImplemented` sentinel (the spec's
NOT_APPLICABLE signal) is modelled as `Option.none` in result values, and
Python exceptions (`RuntimeError`, `TypeError`, ...) as the `Except` error
component.

The dispatch base class `block_base` and the `block_vec` container are not
part of the given sources; where their behaviour is needed it is modelled
from the spec and marked as such in the doc comment of the definition.
-/

/-- Hard (raised) errors of the engine.  Each constructor corresponds to a
`raise` site of the sources (or to a Python-level `TypeError`). -/
inductive RtErr where
  /-- `block_mat.matvec`/`transpmult`: contribution is not a vector; carries
  the textual type of the offending value (Python `type(z)`). -/
  | unexpectedResult (ty : String)
  /-- `block_mat.matvec`/`transpmult`: accumulator/contribution length clash
  at block (i, j); carries i, j, `len(z)` and `len(y[i])`. -/
  | incompatibleBlock (i j lz ly : Nat)
  /-- `matrix_op.matvec` (Epetra.py): operand length does not match the
  operator's domain; carries the expected and the actual length. -/
  | matvecDim (want got : Nat)
  /-- in-place `+=`/`-=` on concrete vectors of unequal length
  (DimensionMismatch of the backend). -/
  | dimMismatch (la lb : Nat)
  /-- generic Python-level `TypeError`/`AttributeError` failure. -/
  | typeError
  /-- `NotImplementedError` raised by `_collapse` for a `block_mat` whose
  shape is not (1,1). -/
  | collapseShape
  /-- `NotImplementedError` raised by `_collapse` for an unsupported leaf. -/
  | collapseType
deriving Repr, DecidableEq

/-- Operands of the engine: the closed universe of values the dispatch code
of the sources distinguishes.  `vec` is a concrete backend vector
(dolfin `GenericVector`), `mat` a concrete backend matrix
(dolfin `GenericMatrix`, dense content), `epmat` the `matrix_op` wrapper of
Epetra.py (matrix content plus its lazy `transposed` flag), `blockVec` and
`blockMat` the block containers, `compose`/`add`/`sub` the lazy tree nodes
of block_compose.py, and `empty` the Python `None` slot. -/
inductive Operand where
  | scalar (s : Int)
  | vec (v : List Int)
  | mat (rows : List (List Int))
  | epmat (rows : List (List Int)) (transposed : Bool)
  | blockVec (xs : List Operand)
  | blockMat (rows : List (List Operand))
  | compose (chain : List Operand)
  | add (A B : Operand)
  | sub (A B : Operand)
  | empty
deriving Repr

namespace Operand

/-- Python `type(x)` rendering used in the `unexpectedResult` message. -/
def kindOf : Operand → String
  | .scalar _ => "int"
  | .vec _ => "GenericVector"
  | .mat _ => "GenericMatrix"
  | .epmat _ _ => "matrix_op"
  | .blockVec _ => "block_vec"
  | .blockMat _ => "block_mat"
  | .compose _ => "block_compose"
  | .add _ _ => "block_add"
  | .sub _ _ => "block_sub"
  | .empty => "NoneType"

/-- `self[i,j] is None or self[i,j]==0` — the skip test of
`block_mat.matvec`.  Only a numeric scalar compares equal to `0` in the
sources (other operand classes fall back to identity comparison). -/
def isSkip : Operand → Bool
  | .empty => true
  | .scalar s => s == 0
  | _ => false

/-- `self[i,j] == 1` — the identity test of `block_mat.matvec`. -/
def isOne : Operand → Bool
  | .scalar s => s == 1
  | _ => false

/-- `numpy.isscalar`. -/
def isScalarOp : Operand → Bool
  | .scalar _ => true
  | _ => false

/-- `isinstance(z, (GenericVector, block_vec))`. -/
def vecLike : Operand → Bool
  | .vec _ => true
  | .blockVec _ => true
  | _ => false

/-- Python `len` on concrete and block vectors (0 elsewhere; `len` is only
ever taken of vector-like operands in the sources). -/
def opLen : Operand → Nat
  | .vec v => v.length
  | .blockVec xs => xs.length
  | _ => 0

/-- Membership test for the `empty` (None) slot. -/
def isEmptyOp : Operand → Bool
  | .empty => true
  | _ => false

end Operand

/-- Number of columns of a dense grid (length of its first row). -/
def ncols {α : Type} (rows : List (List α)) : Nat :=
  (rows.headD []).length

/-- Entry (i, j) of a block grid; out-of-range reads yield the empty slot
(the numpy object array of the sources is rectangular, and the loops of
matvec stay in range, so this default is never taken there). -/
def slotAt (rows : List (List Operand)) (i j : Nat) : Operand :=
  ((rows.getD i []).getD j Operand.empty)

/-- Dot product. -/
def dotProd (a b : List Int) : Int :=
  (List.zipWith (· * ·) a b).sum

/-- Dense matrix–vector product (the backend's `mult`). -/
def matApply (rows : List (List Int)) (v : List Int) : List Int :=
  rows.map (fun r => dotProd r v)

/-- Dense transpose. -/
def matTranspose (rows : List (List Int)) : List (List Int) :=
  (List.range (ncols rows)).map (fun j => rows.map (fun r => r.getD j 0))

/-- Dense transposed matrix–vector product (the backend's transpose apply). -/
def matTApply (rows : List (List Int)) (v : List Int) : List Int :=
  matApply (matTranspose rows) v

/-- Dense matrix–matrix product (the backend's `matmat`). -/
def matMulMat (a b : List (List Int)) : List (List Int) :=
  a.map (fun r => (List.range (ncols b)).map (fun j => dotProd r (b.map (fun br => br.getD j 0))))

/-- Dense scaling. -/
def matScale (s : Int) (a : List (List Int)) : List (List Int) :=
  a.map (fun r => r.map (s * ·))

/-- Dense `lscale*A + rscale*B` (the backend's `add`). -/
def matAddScaled (lscale : Int) (a : List (List Int)) (rscale : Int) (b : List (List Int)) : List (List Int) :=
  (List.zipWith (fun ra rb => List.zipWith (fun x y => lscale * x + rscale * y) ra rb) a b)

/-- The effective dense content of a `matrix_op` (`transposed` resolved). -/
def effMat (rows : List (List Int)) (transposed : Bool) : List (List Int) :=
  if transposed then matTranspose rows else rows

mutual
/-- In-place `y op= z` on concrete/block vectors.  Concrete `+=`/`-=` is the
backend's elementwise update, which fails on unequal lengths
(DimensionMismatch).  Block-vector `+=` is elementwise on slots; it is
modelled from the spec: block_vec is not among the given sources
(spec 4.2: elementwise against an equal-length block vector, failing when
lengths or a positional slot pairing disagree). -/
def vecIop (f : Int → Int → Int) : Operand → Operand → Except RtErr Operand
  | .vec a, .vec b =>
    if a.length == b.length then .ok (.vec (List.zipWith f a b))
    else .error (.dimMismatch a.length b.length)
  | .scalar a, .scalar b => .ok (.scalar (f a b))
  | .blockVec as, .blockVec bs =>
    if as.length == bs.length then
      match vecIopElems f as bs with
      | .error e => .error e
      | .ok cs => .ok (.blockVec cs)
    else .error (.dimMismatch as.length bs.length)
  | _, _ => .error .typeError

/-- Slotwise worker of block-vector `+=`/`-=`. -/
def vecIopElems (f : Int → Int → Int) : List Operand → List Operand → Except RtErr (List Operand)
  | [], _ => .ok []
  | _ :: _, [] => .ok []
  | a :: as, b :: bs =>
    match vecIop f a b with
    | .error e => .error e
    | .ok c =>
      match vecIopElems f as bs with
      | .error e => .error e
      | .ok cs => .ok (c :: cs)
end

/-- `y += z`. -/
def vecIadd : Operand → Operand → Except RtErr Operand := vecIop (· + ·)

/-- `y -= z`. -/
def vecIsub : Operand → Operand → Except RtErr Operand := vecIop (· - ·)

mutual
/-- `s * x` for numeric `s` on vector-shaped operands: concrete vectors
scale elementwise (backend `__rmul__`); block vectors scale slotwise.
Modelled from the spec for the block container (spec 4.2, elementwise
arithmetic); anything else is a Python `TypeError`. -/
def scaleOperand (s : Int) : Operand → Except RtErr Operand
  | .scalar t => .ok (.scalar (s * t))
  | .vec v => .ok (.vec (v.map (s * ·)))
  | .blockVec xs =>
    match scaleElems s xs with
    | .error e => .error e
    | .ok ys => .ok (.blockVec ys)
  | _ => .error .typeError

/-- Slotwise worker of block-vector scaling. -/
def scaleElems (s : Int) : List Operand → Except RtErr (List Operand)
  | [] => .ok []
  | x :: xs =>
    match scaleOperand s x with
    | .error e => .error e
    | .ok y =>
      match scaleElems s xs with
      | .error e => .error e
      | .ok ys => .ok (y :: ys)
end

/-- `block_compose.__init__` (block_compose.py lines 5-9): the chain of an
argument that is already a chain, else the singleton list. -/
def chainOf : Operand → List Operand
  | .compose ch => ch
  | x => [x]

/-- `block_compose(A, B)`: stores `B.chain + A.chain` (flattening). -/
def mkCompose (A B : Operand) : Operand :=
  .compose (chainOf B ++ chainOf A)

/-- Unary minus.  `block_sub.__neg__` swaps the operands
(block_compose.py line 55-56); `block_add.__neg__` wraps in
`block_compose(-1, self)` (line 73-74); the injected `dolfin.Matrix.__neg__`
does the same (`__init__.py` line 34).  Scalars and concrete vectors negate
numerically.  For the remaining operator-like operands the block_base
behaviour is modelled from the spec (4.4: defer the sign flip
multiplicatively). -/
def opNeg : Operand → Operand
  | .scalar s => .scalar (-s)
  | .vec v => .vec (v.map (- ·))
  | .sub A B => .sub B A
  | .add A B => mkCompose (.scalar (-1)) (.add A B)
  | .mat M => mkCompose (.scalar (-1)) (.mat M)
  | x => mkCompose (.scalar (-1)) x

mutual
/-- Python `a * x` as the sources dispatch it.  Result `Option.none` is the
`NotImplemented` value (the spec's NOT_APPLICABLE signal).

* numeric scalars act on scalars, concrete vectors and block vectors
  elementwise (backend/`block_vec` `__rmul__`; the block container part is
  modelled from the spec, 4.2), and on operators through the injected
  `__rmul__` of `__init__.py` line 33, i.e. by `block_compose(s, op)`;
  `block_add`/`block_sub` deliberately do not coerce (block_compose.py
  lines 37-41), so a scalar multiplying them is a Python `TypeError`;
* a concrete matrix uses the injected `__mul__` of `__init__.py`
  lines 24-31: the backend product for a concrete vector, else
  `block_compose(self, x)`;
* `matrix_op` (Epetra.py lines 104-120) and `block_mat` follow the
  block_base protocol, which is modelled from the spec (2, 6): apply to a
  vector-like operand via `matvec` (which may itself return
  NOT_APPLICABLE), fall back to `block_compose(self, x)` otherwise;
* `block_compose.__mul__` is block_compose.py lines 10-15;
* `block_sub.__mul__`/`block_add.__mul__` are block_compose.py
  lines 43-54 and 61-72. -/
def opMul : Operand → Operand → Except RtErr (Option Operand)
  | .scalar s, x =>
    match x with
    | .scalar t => .ok (some (.scalar (s * t)))
    | .vec v => .ok (some (.vec (v.map (s * ·))))
    | .blockVec xs =>
      match scaleElems s xs with
      | .error e => .error e
      | .ok ys => .ok (some (.blockVec ys))
    | .mat M => .ok (some (mkCompose (.scalar s) (.mat M)))
    | .epmat M t => .ok (some (mkCompose (.scalar s) (.epmat M t)))
    | .blockMat rows => .ok (some (mkCompose (.scalar s) (.blockMat rows)))
    | .compose ch => .ok (some (mkCompose (.scalar s) (.compose ch)))
    | _ => .error .typeError
  | .vec v, x =>
    match x with
    | .scalar t => .ok (some (.vec (v.map (· * t))))
    | .mat M => .ok (some (mkCompose (.vec v) (.mat M)))
    | _ => .ok none
  | .blockVec xs, x =>
    match x with
    | .scalar t =>
      match scaleElems t xs with
      | .error e => .error e
      | .ok ys => .ok (some (.blockVec ys))
    | _ => .ok none
  | .mat M, x =>
    match x with
    | .vec v =>
      if v.length == ncols M then .ok (some (.vec (matApply M v)))
      else .error .typeError
    | x => .ok (some (mkCompose (.mat M) x))
  | .epmat M t, x =>
    match x with
    | .vec v =>
      let dl := if t then M.length else ncols M
      if v.length == dl then .ok (some (.vec (matApply (effMat M t) v)))
      else .error (.matvecDim dl v.length)
    | .blockVec _ => .ok none
    | x => .ok (some (mkCompose (.epmat M t) x))
  | .blockMat rows, x =>
    match x with
    | .blockVec xs =>
      match matvecRows xs rows 0 with
      | .error e => .error e
      | .ok none => .ok none
      | .ok (some ys) => .ok (some (.blockVec ys))
    | .vec v =>
      match matvecRows (v.map Operand.scalar) rows 0 with
      | .error e => .error e
      | .ok none => .ok none
      | .ok (some ys) => .ok (some (.blockVec ys))
    | x => .ok (some (mkCompose (.blockMat rows) x))
  | .compose ch, x => composeMulChain ch x
  | .add A B, x =>
    if x.vecLike then
      match opMul A x with
      | .error e => .error e
      | .ok yo =>
        match opMul B x with
        | .error e => .error e
        | .ok zo =>
          match yo, zo with
          | some y, some z =>
            match vecIadd y z with
            | .error e => .error e
            | .ok w => .ok (some w)
          | _, _ => .error .typeError
    else .ok none
  | .sub A B, x =>
    if x.vecLike then
      match opMul A x with
      | .error e => .error e
      | .ok yo =>
        match opMul B x with
        | .error e => .error e
        | .ok zo =>
          match yo, zo with
          | some y, some z =>
            match vecIsub y z with
            | .error e => .error e
            | .ok w => .ok (some w)
          | _, _ => .error .typeError
    else .ok none
  | .empty, _ => .error .typeError
termination_by a _ => (sizeOf a, 0)

/-- The loop of `block_compose.__mul__` (block_compose.py lines 10-15):
`x = op * x` over the stored chain, returning `NotImplemented` as soon as a
factor does. -/
def composeMulChain : List Operand → Operand → Except RtErr (Option Operand)
  | [], x => .ok (some x)
  | op :: rest, x =>
    match opMul op x with
    | .error e => .error e
    | .ok none => .ok none
    | .ok (some y) => composeMulChain rest y
termination_by ch _ => (sizeOf ch, 0)

/-- The per-slot contribution of `block_mat.matvec` (block_mat.py
lines 28-38), for a slot that is not skipped: the identity short-circuit,
the `GenericMatrix` branch (`create_vec` + backend `mult`, which needs a
concrete vector of matching size), and the generic multiply. -/
def matvecZ (s xj : Operand) : Except RtErr (Option Operand) :=
  if s.isOne then .ok (some xj)
  else
    match s with
    | .mat M =>
      match xj with
      | .vec v =>
        if v.length == ncols M then .ok (some (.vec (matApply M v)))
        else .error .typeError
      | _ => .error .typeError
    | s => opMul s xj
termination_by (sizeOf s, 1)

/-- The inner (column) loop of `block_mat.matvec` (block_mat.py
lines 24-57) for row `i`, starting at column `j` with accumulator `yi`
(`Operand.empty` is the untouched `None` state of `y[i]`). -/
def matvecRow (i : Nat) (xs : List Operand) : List Operand → Nat → Operand → Except RtErr (Option Operand)
  | [], _, yi => .ok (some yi)
  | s :: rest, j, yi =>
    if s.isSkip then matvecRow i xs rest (j+1) yi
    else
      match matvecZ s (xs.getD j .empty) with
      | .error e => .error e
      | .ok none => .ok none
      | .ok (some z) =>
        if z.vecLike then
          if yi.isEmptyOp then matvecRow i xs rest (j+1) z
          else if z.opLen != yi.opLen then
            .error (.incompatibleBlock i j z.opLen yi.opLen)
          else
            match vecIadd yi z with
            | .error e => .error e
            | .ok yi2 => matvecRow i xs rest (j+1) yi2
        else .error (.unexpectedResult z.kindOf)
termination_by row _ _ => (sizeOf row, 0)

/-- The outer (row) loop of `block_mat.matvec`. -/
def matvecRows (xs : List Operand) : List (List Operand) → Nat → Except RtErr (Option (List Operand))
  | [], _ => .ok (some [])
  | row :: rest, i =>
    match matvecRow i xs row 0 .empty with
    | .error e => .error e
    | .ok none => .ok none
    | .ok (some yi) =>
      match matvecRows xs rest (i+1) with
      | .error e => .error e
      | .ok none => .ok none
      | .ok (some ys) => .ok (some (yi :: ys))
termination_by rows _ => (sizeOf rows, 1)
end

/-- `block_mat.matvec` (block_mat.py lines 18-58) on a block vector given as
its list of slots. -/
def block_mat_matvec (rows : List (List Operand)) (xs : List Operand) : Except RtErr (Option (List Operand)) :=
  matvecRows xs rows 0

/-- Bound on the size of a defaulted list read, used for termination of the
transpose-apply recursion. -/
theorem sizeOf_getD_le (r : List Operand) (i : Nat) :
    sizeOf (r.getD i Operand.empty) ≤ sizeOf r := by
  induction r generalizing i with
  | nil => simp [List.getD]
  | cons a l ih =>
    cases i with
    | zero => simp; omega
    | succ k =>
      have := ih k
      simp [List.getD] at this ⊢
      omega

/-- `x[j]` in `block_mat.transpmult`, where the running value may have
degenerated to the `NotImplemented` sentinel (`Option.none`): indexing a
block vector yields the slot, indexing a concrete backend vector yields a
raw number (a Python float, here a scalar), anything else is a `TypeError`
(in particular indexing the sentinel). -/
def xIndex : Option Operand → Nat → Except RtErr Operand
  | some (.blockVec xs), j =>
    if j < xs.length then .ok (xs.getD j .empty) else .error .typeError
  | some (.vec v), j =>
    if j < v.length then .ok (.scalar (v.getD j 0)) else .error .typeError
  | _, _ => .error .typeError

mutual
/-- Python `a.transpmult(x)` as the sources define it.

* `matrix_op.transpmult` (Epetra.py lines 122-126) flips the `transposed`
  flag and runs `matvec` (lines 104-120): a non-`GenericVector` operand —
  including the `NotImplemented` sentinel — returns `NotImplemented`, a
  length clash raises, otherwise the (transpose-resolved) product is taken;
* `block_mat.transpmult` is block_mat.py lines 60-93 (see `bmtRow`);
* `block_compose.transpmult` is block_compose.py lines 23-31 (see
  `composeTmGo`);
* every other operand has no usable one-argument `transpmult`
  (`block_add`/`block_sub` have no such attribute; the raw backend matrix
  exposes only the two-argument in-place form), i.e. a `TypeError`. -/
def opTranspmult : Operand → Option Operand → Except RtErr (Option Operand)
  | .epmat M t, x =>
    match x with
    | some (.vec v) =>
      let t2 := !t
      let dl := if t2 then M.length else ncols M
      if v.length == dl then .ok (some (.vec (matApply (effMat M t2) v)))
      else .error (.matvecDim dl v.length)
    | _ => .ok none
  | .blockMat rows, x =>
    match bmtCols rows x (ncols rows) 0 with
    | .error e => .error e
    | .ok colRes =>
      .ok (some (.blockVec ((List.range rows.length).map (fun i => colRes.getD i .empty))))
  | .compose ch, x => composeTmGo ch x
  | _, _ => .error .typeError
termination_by a _ => (sizeOf a, 0, 0)

/-- The loop of `block_compose.transpmult` (block_compose.py lines 23-31):
the chain is traversed in reverse of the stored order (the tail — the
later-stored factors — is processed before the head); a scalar factor
multiplies the running value directly, skipping entirely when it is
exactly 1; every other factor contributes through its `transpmult`.  There
is no `NotImplemented` check, so a sentinel produced by one factor is
passed on to the next. -/
def composeTmGo : List Operand → Option Operand → Except RtErr (Option Operand)
  | [], x => .ok x
  | op :: rest, x =>
    match composeTmGo rest x with
    | .error e => .error e
    | .ok v => transpStep op v
termination_by ch _ => (sizeOf ch, 0, 0)

/-- One iteration of the `block_compose.transpmult` loop (block_compose.py
lines 25-30): a scalar factor is exactly skipped when it is 1 and otherwise
multiplies the running value directly (`op*x`, a `TypeError` on the
sentinel); any other factor contributes through its `transpmult`. -/
def transpStep : Operand → Option Operand → Except RtErr (Option Operand)
  | .scalar s, v =>
    if s == 1 then .ok v
    else
      match v with
      | some y => opMul (.scalar s) y
      | none => .error .typeError
  | op, v => opTranspmult op v
termination_by op _ => (sizeOf op, 1, 0)

/-- The outer (column) loop of `block_mat.transpmult` (block_mat.py
lines 67-92), producing the per-column accumulators for columns
`i, i+1, ...` while `rem` columns remain. -/
def bmtCols (rows : List (List Operand)) (x : Option Operand) : Nat → Nat → Except RtErr (List Operand)
  | 0, _ => .ok []
  | rem + 1, i =>
    match bmtRow rows x i rows 0 .empty with
    | .error e => .error e
    | .ok yi =>
      match bmtCols rows x rem (i + 1) with
      | .error e => .error e
      | .ok rest => .ok (yi :: rest)
termination_by rem _ => (sizeOf rows, rem, 0)

/-- The inner (row) loop of `block_mat.transpmult` for column `i`:
`rowsRest` are the rows still to visit (row index `j`), `yi` the
accumulator for `y[i]`.  The slot acted on is `self[j,i]`; note that the
identity test of the source inspects the mirrored slot `self[i,j]`
(block_mat.py line 72) while every other part of the body uses
`self[j,i]`.  A scalar slot multiplies directly (mult == transpmult for
scalars), every other slot contributes through its own `transpmult`. -/
def bmtRow (rows : List (List Operand)) (x : Option Operand) (i : Nat) : List (List Operand) → Nat → Operand → Except RtErr Operand
  | [], _, yi => .ok yi
  | r :: rs, j, yi =>
    if (r.getD i Operand.empty).isSkip then bmtRow rows x i rs (j + 1) yi
    else
      match bmtZ rows x i j (r.getD i Operand.empty) with
      | .error e => .error e
      | .ok none => .error (.unexpectedResult "NotImplementedType")
      | .ok (some z) =>
        if z.vecLike then
          if yi.isEmptyOp then bmtRow rows x i rs (j + 1) z
          else if z.opLen != yi.opLen then
            .error (.incompatibleBlock i j z.opLen yi.opLen)
          else
            match vecIadd yi z with
            | .error e => .error e
            | .ok yi2 => bmtRow rows x i rs (j + 1) yi2
        else .error (.unexpectedResult z.kindOf)
termination_by rowsRest _ _ => (sizeOf rowsRest, 0, 0)
decreasing_by
  all_goals simp_wf
  all_goals try omega
  all_goals
    (have h := sizeOf_getD_le r i; simp [List.getD] at h; omega)

/-- The contribution `z` of slot `self[j,i]` (there given as `s`) in
`block_mat.transpmult` (block_mat.py lines 72-80): the identity test
inspects the mirrored slot `self[i,j]` (the source's line 72 indexes
`[i,j]`, not `[j,i]`) and yields `x[j]`; a scalar slot multiplies `x[j]`
directly; anything else contributes `self[j,i].transpmult(x[j])`. -/
def bmtZ (rows : List (List Operand)) (x : Option Operand) (i j : Nat) (s : Operand) : Except RtErr (Option Operand) :=
  if (slotAt rows i j).isOne then
    match xIndex x j with
    | .error e => .error e
    | .ok xj => .ok (some xj)
  else if s.isScalarOp then
    match xIndex x j with
    | .error e => .error e
    | .ok xj => opMul s xj
  else
    match xIndex x j with
    | .error e => .error e
    | .ok xj => opTranspmult s (some xj)
termination_by (sizeOf s, 1, 0)
end

/-- `matrix_op.matmat` (Epetra.py lines 128-154) with the receiver a
collapsed `matrix_op`: a scalar operand scales a copy (kept lazy-transposed,
and not even scaled when the scalar is 1 — same content either way), another
`matrix_op` is multiplied with both `transposed` flags resolved, giving a
non-transposed result; anything else cannot provide matrix data
(`TypeError`). -/
def epMatmat : Operand → Operand → Except RtErr Operand
  | .epmat rows t, .scalar s => .ok (.epmat (if s == 1 then rows else matScale s rows) t)
  | .epmat rows t, .epmat rows2 t2 =>
    .ok (.epmat (matMulMat (effMat rows t) (effMat rows2 t2)) false)
  | _, _ => .error .typeError

/-- `matrix_op.add` (Epetra.py lines 156-174) between collapsed values:
only another `matrix_op` provides matrix data (`lscale*self + rscale*other`,
both transposed-resolved); everything else — including a plain scalar,
which has no `down_cast` — raises. -/
def epAdd (lscale rscale : Int) : Operand → Operand → Except RtErr Operand
  | .epmat rows t, .epmat rows2 t2 =>
    .ok (.epmat (matAddScaled lscale (effMat rows t) rscale (effMat rows2 t2)) false)
  | _, _ => .error .typeError

/-- One step of the factor-folding loop of `_collapse` for a chain
(Epetra.py lines 243-250), `A` being the factor popped first: two scalars
multiply numerically, a scalar `A` scales `B`, otherwise `A.matmat(B)`. -/
def combineFactors (A B : Operand) : Except RtErr Operand :=
  match A, B with
  | .scalar a, .scalar b => .ok (.scalar (a * b))
  | .scalar _, _ => epMatmat B A
  | _, _ => epMatmat A B

/-- The `while len(factors) > 1` loop of `_collapse` (Epetra.py
lines 243-251), acting on the list whose head is the factor popped first. -/
def foldFactors : List Operand → Except RtErr Operand
  | [] => .error .typeError
  | [a] => .ok a
  | a :: b :: rest =>
    match combineFactors a b with
    | .error e => .error e
    | .ok c => foldFactors (c :: rest)
termination_by l => l.length

mutual
/-- `_collapse` (Epetra.py lines 221-270): `matrix_op` values and scalars
are already collapsed, a backend matrix is wrapped, a `block_mat` must have
shape (1,1) and collapses to its single entry, a chain is collapsed
factor-by-factor and folded pairwise, `block_add`/`block_sub` collapse both
children and combine them with `add` (with `rscale`/`lscale` -1 for
subtraction, scalar pairs numerically), and any other leaf is unsupported.
The `diag_op` wrappers and the `block_transpose` node (absent from the
given block_compose.py) are not modelled. -/
def collapseOp : Operand → Except RtErr Operand
  | .epmat rows t => .ok (.epmat rows t)
  | .mat rows => .ok (.epmat rows false)
  | .blockMat rows =>
    if rows.length == 1 && ncols rows == 1 then collapseOp (slotAt rows 0 0)
    else .error .collapseShape
  | .compose ch =>
    match collapseList ch with
    | .error e => .error e
    | .ok cs => foldFactors cs
  | .add A B =>
    match collapseOp A, collapseOp B with
    | .error e, _ => .error e
    | _, .error e => .error e
    | .ok (.scalar a), .ok (.scalar b) => .ok (.scalar (a + b))
    | .ok (.scalar a), .ok b' => epAdd 1 1 b' (.scalar a)
    | .ok a', .ok b' => epAdd 1 1 a' b'
  | .sub A B =>
    match collapseOp A, collapseOp B with
    | .error e, _ => .error e
    | _, .error e => .error e
    | .ok (.scalar a), .ok (.scalar b) => .ok (.scalar (a - b))
    | .ok (.scalar a), .ok b' => epAdd (-1) 1 b' (.scalar a)
    | .ok a', .ok b' => epAdd 1 (-1) a' b'
  | .scalar s => .ok (.scalar s)
  | _ => .error .collapseType
termination_by a => (sizeOf a, 1)
decreasing_by
  all_goals simp_wf
  all_goals try omega
  all_goals
    (have h1 : sizeOf (rows.getD 0 ([] : List Operand)) ≤ sizeOf rows := by
       cases rows with
       | nil => simp [List.getD]
       | cons r rs => simp [List.getD]; omega
     have h2 := sizeOf_getD_le (rows.getD 0 []) 0
     simp only [slotAt]
     omega)

/-- `map(_collapse, ...)` over a chain. -/
def collapseList : List Operand → Except RtErr (List Operand)
  | [] => .ok []
  | a :: rest =>
    match collapseOp a with
    | .error e => .error e
    | .ok c =>
      match collapseList rest with
      | .error e => .error e
      | .ok cs => .ok (c :: cs)
termination_by l => (sizeOf l, 0)
end

/-- The message text of each raised error, mirroring the format strings of
the sources (block_mat.py lines 48-50, 54-56, 83-85, 89-91; Epetra.py
lines 30-31, 114-116, 239). -/
def RtErr.message : RtErr → String
  | .unexpectedResult ty =>
      ("unexpected result in matvec, " ++ ty ++
        " -- possibly because RHS contains scalars instead of vectors, ") ++
        "use create_vec() or allocate()"
  | .incompatibleBlock i j lz ly =>
      "incompatible dimensions in block (" ++ toString i ++ "," ++ toString j ++ ") -- " ++ toString lz ++ ", was " ++ toString ly
  | .matvecDim want got =>
      "incompatible dimensions for matvec, " ++ toString want ++ " != " ++ toString got
  | .dimMismatch la lb =>
      "incompatible vector lengths, " ++ toString la ++ " != " ++ toString lb
  | .typeError => "TypeError"
  | .collapseShape => "collapse() for block_mat with shape != (1,1)"
  | .collapseType => "collapse() for unsupported type"

/-- The no-nested-chain invariant of the spec: no element of an operand's
chain view is itself a `block_compose` node. -/
def noComposeElem (X : Operand) : Prop :=
  ∀ e ∈ chainOf X, ∀ ch, e ≠ Operand.compose ch

/-- C1: applying a compose chain (`block_compose.__mul__`) iterates the
stored factors in order, setting `x = factor * x`; if any intermediate
`factor * x` yields NotApplicable the whole apply returns NotApplicable
immediately — whatever the later factors are, none of them is applied and
no partial result is produced. -/
theorem c1_compose_apply_fail_fast :
    (∀ ch x, opMul (.compose ch) x = composeMulChain ch x) ∧
    (∀ c1 c2 x, composeMulChain (c1 ++ c2) x =
      match composeMulChain c1 x with
      | .ok (some y) => composeMulChain c2 y
      | r => r) ∧
    (∀ pre f post x y, composeMulChain pre x = .ok (some y) → opMul f y = .ok none →
      composeMulChain (pre ++ f :: post) x = .ok none) := by
  have happ : ∀ c1 c2 x, composeMulChain (c1 ++ c2) x =
      match composeMulChain c1 x with
      | .ok (some y) => composeMulChain c2 y
      | r => r := by
    intro c1
    induction c1 with
    | nil => intro c2 x; simp [composeMulChain]
    | cons op rest ih =>
      intro c2 x
      simp only [List.cons_append, composeMulChain]
      cases h : opMul op x with
      | error e => simp
      | ok yo =>
        cases yo with
        | none => simp
        | some y => simpa using ih c2 y
  refine ⟨fun ch x => by simp [opMul], happ, ?_⟩
  intro pre f post x y hpre hf
  rw [happ pre (f :: post) x, hpre]
  simp [composeMulChain, hf]

/-- Witness for C1 at a concrete chain: the empty prefix evaluates to the
input, the `block_sub` factor signals NotApplicable on a scalar operand,
and the whole chain apply returns NotApplicable although a further factor
follows. -/
theorem c1_compose_apply_fail_fast_witness :
    composeMulChain [] (.scalar 7) = .ok (some (.scalar 7)) ∧
    opMul (.sub (.vec [1]) (.vec [2])) (.scalar 7) = .ok none ∧
    composeMulChain ([] ++ (.sub (.vec [1]) (.vec [2])) :: [.scalar 5]) (.scalar 7) = .ok none := by
  have h1 : composeMulChain [] (.scalar 7) = .ok (some (.scalar 7)) := by
    simp [composeMulChain]
  have h2 : opMul (.sub (.vec [1]) (.vec [2])) (.scalar 7) = .ok none := by
    simp [opMul, Operand.vecLike]
  exact ⟨h1, h2, c1_compose_apply_fail_fast.2.2 [] _ [.scalar 5] _ _ h1 h2⟩

/-- C3: composing is associative on the stored representation —
`Compose(Compose(A,B),C)` and `Compose(A,Compose(B,C))` build the very same
flat chain (hence the same apply result on every operand) — and a chain
built from operands whose chain views contain no compose node again
contains no compose node as an element. -/
theorem c3_flattening :
    (∀ A B C, mkCompose (mkCompose A B) C = mkCompose A (mkCompose B C) ∧
      ∀ x, opMul (mkCompose (mkCompose A B) C) x = opMul (mkCompose A (mkCompose B C)) x) ∧
    (∀ A B, noComposeElem A → noComposeElem B → noComposeElem (mkCompose A B)) := by
  have hassoc : ∀ A B C, mkCompose (mkCompose A B) C = mkCompose A (mkCompose B C) := by
    intro A B C
    simp [mkCompose, chainOf, List.append_assoc]
  refine ⟨fun A B C => ⟨hassoc A B C, fun x => by rw [hassoc]⟩, ?_⟩
  intro A B hA hB e he ch
  simp only [mkCompose, chainOf] at he
  rcases List.mem_append.mp he with h | h
  · exact hB e h ch
  · exact hA e h ch

/-- Witness for C3 at concrete operands: two scalars satisfy the invariant
and so does their composition. -/
theorem c3_flattening_witness :
    noComposeElem (.scalar 2) ∧ noComposeElem (.scalar 3) ∧
    noComposeElem (mkCompose (.scalar 2) (.scalar 3)) := by
  have h2 : noComposeElem (.scalar 2) := by
    intro e he ch
    simp [chainOf] at he
    subst he
    simp
  have h3 : noComposeElem (.scalar 3) := by
    intro e he ch
    simp [chainOf] at he
    subst he
    simp
  exact ⟨h2, h3, c3_flattening.2 _ _ h2 h3⟩

/-- C4 (code bug): evaluation of `block_mat.transpmult` at the failing
input.  The matrix has the operator `[[2]]` at block (0,1) and the scalar
identity 1 at block (1,0).  Because line 72 of block_mat.py tests the
mirrored slot `self[i,j]` instead of the processed slot `self[j,i]`, the
contribution of the operator slot (0,1) to output position 1 is taken to be
`x[0]` itself — the result is `[x[1], x[0]]` — although the operator's own
adjoint-apply at `x[0]` is `[10]`, so the claimed mirror-of-matvec
behaviour would give `[x[1], [10]]`. -/
theorem c4_transpmult_mirrored_identity_bug :
    opTranspmult (.blockMat [[.empty, .epmat [[2]] false], [.scalar 1, .empty]])
      (some (.blockVec [.vec [5], .vec [7]])) = .ok (some (.blockVec [.vec [7], .vec [5]])) ∧
    opTranspmult (.epmat [[2]] false) (some (.vec [5])) = .ok (some (.vec [10])) := by
  constructor
  · simp [opTranspmult, bmtCols, bmtRow, bmtZ, xIndex, opMul, ncols, slotAt,
      Operand.isSkip, Operand.isOne, Operand.isScalarOp, Operand.vecLike, Operand.isEmptyOp,
      Operand.opLen, List.getD, List.range_succ]
  · simp [opTranspmult, ncols, effMat, matTranspose, matApply, dotProd, List.getD,
      List.range_succ]

/-- C6 (counterexample): in the chain `[2, matrix_op [[3]]]` the factor
processed first by the reverse traversal — the `matrix_op` — signals
NotApplicable on the scalar operand 5, yet `block_compose.transpmult` does
not abort with NotApplicable: the sentinel is handed to the scalar factor
2, whose direct multiplication fails hard (a `TypeError`), so the overall
result is a raised error, not NotApplicable. -/
theorem c6_transpmult_no_fail_fast_counterexample :
    opTranspmult (.epmat [[3]] false) (some (.scalar 5)) = .ok none ∧
    composeTmGo [.scalar 2, .epmat [[3]] false] (some (.scalar 5)) = .error .typeError ∧
    composeTmGo [.scalar 2, .epmat [[3]] false] (some (.scalar 5)) ≠ .ok none := by
  refine ⟨by simp [opTranspmult], ?_, ?_⟩
  · simp [composeTmGo, transpStep, opTranspmult, opMul]
  · intro h
    rw [show composeTmGo [.scalar 2, .epmat [[3]] false] (some (.scalar 5)) = .error .typeError
      from by simp [composeTmGo, transpStep, opTranspmult, opMul]] at h
    exact Except.noConfusion h

/-- C6 (amended): `block_compose.transpmult` iterates the reverse of the
stored chain order, multiplying the running value directly by each scalar
factor (skipping a scalar that is exactly 1) and applying each non-scalar
factor's `transpmult`; it performs no NotApplicable check, so a factor
whose adjoint-multiply signals NotApplicable does not abort the traversal —
the sentinel is simply passed on to the remaining factors. -/
theorem c6_transpmult_reverse_traversal :
    (∀ ch x, opTranspmult (.compose ch) x = composeTmGo ch x) ∧
    (∀ c1 c2 x, composeTmGo (c1 ++ c2) x =
      match composeTmGo c2 x with
      | .ok v => composeTmGo c1 v
      | r => r) ∧
    (∀ v, transpStep (.scalar 1) v = .ok v) ∧
    (∀ s y, (s == (1 : Int)) = false → transpStep (.scalar s) (some y) = opMul (.scalar s) y) ∧
    (∀ op v, op.isScalarOp = false → transpStep op v = opTranspmult op v) ∧
    (∀ c1 f v, f.isScalarOp = false → opTranspmult f v = .ok none →
      composeTmGo (c1 ++ [f]) v = composeTmGo c1 none) := by
  have hstep : ∀ op v, op.isScalarOp = false → transpStep op v = opTranspmult op v := by
    intro op v h
    cases op <;> cases v <;> simp_all [transpStep, Operand.isScalarOp]
  have happ : ∀ c1 c2 x, composeTmGo (c1 ++ c2) x =
      match composeTmGo c2 x with
      | .ok v => composeTmGo c1 v
      | r => r := by
    intro c1
    induction c1 with
    | nil =>
      intro c2 x
      cases h : composeTmGo c2 x <;> simp [composeTmGo, h]
    | cons op rest ih =>
      intro c2 x
      simp only [List.cons_append, composeTmGo, ih c2 x]
      cases h : composeTmGo c2 x with
      | error e => simp
      | ok v => simp
  refine ⟨fun ch x => by simp [opTranspmult], happ,
    fun v => by cases v <;> simp [transpStep], ?_, hstep, ?_⟩
  · intro s y hs
    simp [transpStep, hs]
  · intro c1 f v hf hnone
    rw [happ c1 [f] v]
    simp [composeTmGo, hstep f v hf, hnone]

/-- Witness for C6 (amended) at a concrete chain: the `matrix_op` factor is
not a scalar, it signals NotApplicable on the scalar operand, and the chain
traversal continues with the sentinel instead of aborting. -/
theorem c6_transpmult_reverse_traversal_witness :
    (Operand.epmat [[3]] false).isScalarOp = false ∧
    opTranspmult (.epmat [[3]] false) (some (.scalar 5)) = .ok none ∧
    composeTmGo ([.scalar 2] ++ [.epmat [[3]] false]) (some (.scalar 5)) =
      composeTmGo [.scalar 2] none := by
  have h1 : (Operand.epmat [[3]] false).isScalarOp = false := by
    simp [Operand.isScalarOp]
  have h2 : opTranspmult (.epmat [[3]] false) (some (.scalar 5)) = .ok none := by
    simp [opTranspmult]
  exact ⟨h1, h2, c6_transpmult_reverse_traversal.2.2.2.2.2 [.scalar 2] _ _ h1 h2⟩

/-- C7: negating a `block_sub` node swaps its two operands, so applying the
negation to any operand gives exactly what `Sub(B,A)` gives. -/
theorem c7_sub_neg_swaps :
    ∀ A B x, opNeg (.sub A B) = .sub B A ∧
      opMul (opNeg (.sub A B)) x = opMul (.sub B A) x := by
  intro A B x
  exact ⟨by simp [opNeg], by simp [opNeg]⟩

/-- C8: `block_add.__mul__` and `block_sub.__mul__` return NotApplicable on
any operand that is not a concrete or block vector; on a vector-like
operand they compute `y = A*x` and update it in place with `B*x` (added,
resp. subtracted), returning the updated vector. -/
theorem c8_add_sub_apply :
    (∀ A B x, x.vecLike = false →
      opMul (.add A B) x = .ok none ∧ opMul (.sub A B) x = .ok none) ∧
    (∀ A B x y z, x.vecLike = true →
      opMul A x = .ok (some y) → opMul B x = .ok (some z) →
      opMul (.add A B) x = Except.map some (vecIadd y z) ∧
      opMul (.sub A B) x = Except.map some (vecIsub y z)) := by
  constructor
  · intro A B x hx
    exact ⟨by simp [opMul, hx], by simp [opMul, hx]⟩
  · intro A B x y z hx hA hB
    constructor
    · cases h : vecIadd y z <;> simp [opMul, hx, hA, hB, h, Except.map]
    · cases h : vecIsub y z <;> simp [opMul, hx, hA, hB, h, Except.map]

/-- Witness for C8 at concrete operands: a scalar operand is not
vector-like (both nodes answer NotApplicable), and on the concrete vector
`[4]` the two `matrix_op` children produce `[8]` and `[12]`, which the
nodes combine in place. -/
theorem c8_add_sub_apply_witness :
    (Operand.scalar 9).vecLike = false ∧
    (Operand.vec [4]).vecLike = true ∧
    opMul (.epmat [[2]] false) (.vec [4]) = .ok (some (.vec [8])) ∧
    opMul (.epmat [[3]] false) (.vec [4]) = .ok (some (.vec [12])) ∧
    (opMul (.add (.epmat [[2]] false) (.epmat [[3]] false)) (.scalar 9) = .ok none ∧
      opMul (.sub (.epmat [[2]] false) (.epmat [[3]] false)) (.scalar 9) = .ok none) ∧
    (opMul (.add (.epmat [[2]] false) (.epmat [[3]] false)) (.vec [4]) =
        Except.map some (vecIadd (.vec [8]) (.vec [12])) ∧
      opMul (.sub (.epmat [[2]] false) (.epmat [[3]] false)) (.vec [4]) =
        Except.map some (vecIsub (.vec [8]) (.vec [12]))) := by
  have h0 : (Operand.scalar 9).vecLike = false := by simp [Operand.vecLike]
  have h1 : (Operand.vec [4]).vecLike = true := by simp [Operand.vecLike]
  have h2 : opMul (.epmat [[2]] false) (.vec [4]) = .ok (some (.vec [8])) := by
    simp [opMul, Operand.vecLike, ncols, effMat, matApply, dotProd, List.getD]
  have h3 : opMul (.epmat [[3]] false) (.vec [4]) = .ok (some (.vec [12])) := by
    simp [opMul, Operand.vecLike, ncols, effMat, matApply, dotProd, List.getD]
  exact ⟨h0, h1, h2, h3, c8_add_sub_apply.1 _ _ _ h0,
    c8_add_sub_apply.2 _ _ _ _ _ h1 h2 h3⟩

/-- C9: `_collapse` of a `block_mat` of shape (1,1) is the collapse of its
single entry; any other block-matrix shape is rejected with the
`NotImplementedError` of Epetra.py line 239. -/
theorem c9_collapse_1x1 :
    ∀ rows, (rows.length = 1 ∧ ncols rows = 1 →
        collapseOp (.blockMat rows) = collapseOp (slotAt rows 0 0)) ∧
      (¬(rows.length = 1 ∧ ncols rows = 1) →
        collapseOp (.blockMat rows) = .error .collapseShape) := by
  intro rows
  constructor
  · rintro ⟨h1, h2⟩
    simp [collapseOp, h1, h2]
  · intro h
    cases hc : (rows.length == 1 && ncols rows == 1) with
    | true =>
      exact absurd (by simpa using hc) h
    | false =>
      simp [collapseOp, hc]

/-- Witness for C9 at concrete block matrices: a (1,1) block matrix of the
scalar 3 collapses to its single entry, and a (1,2) block matrix is
rejected. -/
theorem c9_collapse_1x1_witness :
    (([[Operand.scalar 3]] : List (List Operand)).length = 1 ∧
        ncols ([[Operand.scalar 3]] : List (List Operand)) = 1) ∧
    collapseOp (.blockMat [[.scalar 3]]) = collapseOp (slotAt [[.scalar 3]] 0 0) ∧
    ¬(([[Operand.scalar 1, Operand.scalar 2]] : List (List Operand)).length = 1 ∧
        ncols ([[Operand.scalar 1, Operand.scalar 2]] : List (List Operand)) = 1) ∧
    collapseOp (.blockMat [[.scalar 1, .scalar 2]]) = .error .collapseShape := by
  have hs : (([[Operand.scalar 3]] : List (List Operand)).length = 1 ∧
      ncols ([[Operand.scalar 3]] : List (List Operand)) = 1) := by
    constructor <;> simp [ncols]
  have hn : ¬(([[Operand.scalar 1, Operand.scalar 2]] : List (List Operand)).length = 1 ∧
      ncols ([[Operand.scalar 1, Operand.scalar 2]] : List (List Operand)) = 1) := by
    rintro ⟨-, h⟩
    simp [ncols] at h
  exact ⟨hs, (c9_collapse_1x1 _).1 hs, hn, (c9_collapse_1x1 _).2 hn⟩

/-- A vector-like operand is not the empty slot. -/
theorem vecLike_not_empty (z : Operand) (h : z.vecLike = true) : z.isEmptyOp = false := by
  cases z <;> simp_all [Operand.vecLike, Operand.isEmptyOp]

/-- Slotwise block-vector update preserves the (clipped) length. -/
theorem vecIopElems_length (f : Int → Int → Int) :
    ∀ as bs cs, vecIopElems f as bs = .ok cs → cs.length = min as.length bs.length := by
  intro as
  induction as with
  | nil =>
    intro bs cs h
    simp [vecIopElems] at h
    subst h
    simp
  | cons a at' ih =>
    intro bs cs h
    cases bs with
    | nil =>
      simp [vecIopElems] at h
      subst h
      simp
    | cons b bt =>
      rw [vecIopElems] at h
      cases h1 : vecIop f a b with
      | error e => rw [h1] at h; simp at h
      | ok c =>
        rw [h1] at h
        cases h2 : vecIopElems f at' bt with
        | error e => rw [h2] at h; simp at h
        | ok cs' =>
          rw [h2] at h
          simp at h
          subst h
          have := ih bt cs' h2
          simp [this]
          omega

/-- A successful in-place vector update keeps the length of the
accumulator and never produces an empty slot. -/
theorem vecIop_ok (f : Int → Int → Int) (y z w : Operand) (h : vecIop f y z = .ok w) :
    w.opLen = y.opLen ∧ w.isEmptyOp = false := by
  rw [vecIop.eq_def] at h
  split at h
  · rename_i a b
    split at h
    · rename_i hl
      simp only [Except.ok.injEq] at h
      subst h
      simp at hl
      simp [Operand.opLen, Operand.isEmptyOp, hl]
    · exact absurd h (by simp)
  · rename_i a b
    simp only [Except.ok.injEq] at h
    subst h
    simp [Operand.opLen, Operand.isEmptyOp]
  · rename_i as bs
    split at h
    · rename_i hl
      split at h
      · exact absurd h (by simp)
      · rename_i cs h2
        simp only [Except.ok.injEq] at h
        subst h
        have hlen := vecIopElems_length f as bs cs h2
        simp at hl
        simp [Operand.opLen, Operand.isEmptyOp, hlen, hl]
    · exact absurd h (by simp)
  · exact absurd h (by simp)

/-- Once the matvec row accumulator is set, its length never changes for
the rest of the row. -/
theorem matvecRow_ok_len :
    ∀ (r : List Operand) (i : Nat) (xs : List Operand) (j0 : Nat) (yi w : Operand),
      matvecRow i xs r j0 yi = .ok (some w) → yi.isEmptyOp = false →
      w.opLen = yi.opLen ∧ w.isEmptyOp = false := by
  intro r
  induction r with
  | nil =>
    intro i xs j0 yi w h hne
    simp only [matvecRow] at h
    simp at h
    subst h
    exact ⟨rfl, hne⟩
  | cons s rest ih =>
    intro i xs j0 yi w h hne
    simp only [matvecRow] at h
    split at h
    · exact ih _ _ _ _ _ h hne
    · split at h
      · simp at h
      · simp at h
      · split at h
        · split at h
          · rename_i hyi
            rw [hne] at hyi
            exact Bool.noConfusion hyi
          · split at h
            · simp at h
            · split at h
              · simp at h
              · rename_i yi2 ha
                obtain ⟨h1, h2⟩ := vecIop_ok _ yi _ yi2 ha
                obtain ⟨hw1, hw2⟩ := ih _ _ _ _ _ h h2
                exact ⟨hw1.trans h1, hw2⟩
        · simp at h

/-- In a row that `block_mat.matvec` completes successfully, every
non-skipped slot's contribution is vector-like and has the length of the
row's final accumulator. -/
theorem matvecRow_ok_contrib :
    ∀ (r : List Operand) (i : Nat) (xs : List Operand) (j0 : Nat) (yi w : Operand),
      matvecRow i xs r j0 yi = .ok (some w) →
      ∀ d z, (r.getD d Operand.empty).isSkip = false →
        matvecZ (r.getD d Operand.empty) (xs.getD (j0 + d) Operand.empty) = .ok (some z) →
        z.vecLike = true ∧ z.opLen = w.opLen := by
  intro r
  induction r with
  | nil =>
    intro i xs j0 yi w h d z hsk hz
    simp [List.getD, Operand.isSkip] at hsk
  | cons s rest ih =>
    intro i xs j0 yi w h d z hsk hz
    simp only [matvecRow] at h
    split at h
    · rename_i hskip
      cases d with
      | zero =>
        simp only [List.getD_cons_zero] at hsk
        rw [hskip] at hsk
        exact Bool.noConfusion hsk
      | succ d' =>
        have harith : j0 + (d' + 1) = (j0 + 1) + d' := by omega
        rw [harith] at hz
        simp only [List.getD_cons_succ] at hsk hz
        exact ih i xs (j0 + 1) yi w h d' z hsk hz
    · split at h
      · simp at h
      · simp at h
      · rename_i z0 heq
        split at h
        · rename_i hv
          split at h
          · cases d with
            | zero =>
              simp only [List.getD_cons_zero] at hz
              simp only [Nat.add_zero] at hz
              rw [heq] at hz
              simp at hz
              subst hz
              obtain ⟨hw1, -⟩ :=
                matvecRow_ok_len rest i xs (j0 + 1) z0 w h (vecLike_not_empty z0 hv)
              exact ⟨hv, hw1.symm⟩
            | succ d' =>
              have harith : j0 + (d' + 1) = (j0 + 1) + d' := by omega
              rw [harith] at hz
              simp only [List.getD_cons_succ] at hsk hz
              exact ih i xs (j0 + 1) z0 w h d' z hsk hz
          · rename_i hyine
            split at h
            · simp at h
            · rename_i hlen
              split at h
              · simp at h
              · rename_i yi2 ha
                cases d with
                | zero =>
                  simp only [List.getD_cons_zero] at hz
                  simp only [Nat.add_zero] at hz
                  rw [heq] at hz
                  simp at hz
                  subst hz
                  obtain ⟨ha1, ha2⟩ := vecIop_ok _ yi _ yi2 ha
                  obtain ⟨hw1, -⟩ := matvecRow_ok_len rest i xs (j0 + 1) yi2 w h ha2
                  have hleq : z0.opLen = yi.opLen := by
                    by_contra hne
                    exact hlen (by simpa using hne)
                  exact ⟨hv, by omega⟩
                | succ d' =>
                  have harith : j0 + (d' + 1) = (j0 + 1) + d' := by omega
                  rw [harith] at hz
                  simp only [List.getD_cons_succ] at hsk hz
                  exact ih i xs (j0 + 1) yi2 w h d' z hsk hz
        · simp at h

/-- A successful `block_mat.matvec` is exactly the list of its per-row
results. -/
theorem matvecRows_ok :
    ∀ (rows : List (List Operand)) (xs : List Operand) (i0 : Nat) (y : List Operand),
      matvecRows xs rows i0 = .ok (some y) →
      y.length = rows.length ∧
      ∀ k, k < rows.length →
        matvecRow (i0 + k) xs (rows.getD k []) 0 Operand.empty =
          .ok (some (y.getD k Operand.empty)) := by
  intro rows
  induction rows with
  | nil =>
    intro xs i0 y h
    simp only [matvecRows] at h
    simp at h
    subst h
    simp
  | cons row rest ih =>
    intro xs i0 y h
    simp only [matvecRows] at h
    split at h
    · simp at h
    · simp at h
    · rename_i yi hrow
      split at h
      · simp at h
      · simp at h
      · rename_i ys hrest
        simp at h
        subst h
        obtain ⟨hlen, hk⟩ := ih xs (i0 + 1) ys hrest
        refine ⟨by simp [hlen], ?_⟩
        intro k hklt
        cases k with
        | zero =>
          simpa using hrow
        | succ k' =>
          have harith : i0 + (k' + 1) = (i0 + 1) + k' := by omega
          rw [harith]
          simpa using hk k' (by simpa using hklt)

/-- A row of only skipped slots leaves the accumulator untouched. -/
theorem matvecRow_skipAll :
    ∀ (r : List Operand) (i : Nat) (xs : List Operand) (j0 : Nat) (yi : Operand),
      (∀ d, (r.getD d Operand.empty).isSkip = true) →
      matvecRow i xs r j0 yi = .ok (some yi) := by
  intro r
  induction r with
  | nil => intro i xs j0 yi _; simp [matvecRow]
  | cons s rest ih =>
    intro i xs j0 yi hsk
    have h0 : s.isSkip = true := by simpa using hsk 0
    simp only [matvecRow, h0, if_true]
    exact ih i xs (j0 + 1) yi (fun d => by simpa using hsk (d + 1))

/-- A row holding the scalar 1 at column `c` and skipped slots elsewhere
contributes `x[c]` itself — or the unexpected-result error when `x[c]` is
not vector-like. -/
theorem matvecRow_identity_row :
    ∀ (r : List Operand) (c i : Nat) (xs : List Operand) (j0 : Nat),
      r.getD c Operand.empty = .scalar 1 →
      (∀ d, d ≠ c → (r.getD d Operand.empty).isSkip = true) →
      matvecRow i xs r j0 Operand.empty =
        (if (xs.getD (j0 + c) Operand.empty).vecLike then
          .ok (some (xs.getD (j0 + c) Operand.empty))
        else .error (.unexpectedResult (xs.getD (j0 + c) Operand.empty).kindOf)) := by
  intro r
  induction r with
  | nil =>
    intro c i xs j0 hc hsk
    simp [List.getD] at hc
  | cons s rest ih =>
    intro c i xs j0 hc hsk
    cases c with
    | zero =>
      simp only [List.getD_cons_zero] at hc
      subst hc
      have hns : (Operand.scalar 1).isSkip = false := by simp [Operand.isSkip]
      have hz : matvecZ (.scalar 1) (xs.getD j0 Operand.empty) =
          .ok (some (xs.getD j0 Operand.empty)) := by
        simp [matvecZ, Operand.isOne]
      simp only [matvecRow, hns, Bool.false_eq_true, if_false, hz]
      by_cases hv : (xs.getD j0 Operand.empty).vecLike
      · have hemp : (Operand.empty).isEmptyOp = true := by simp [Operand.isEmptyOp]
        simp only [hv, if_true, hemp]
        rw [matvecRow_skipAll rest i xs (j0 + 1) _
          (fun d => by simpa using hsk (d + 1) (by omega))]
        simp only [Nat.add_zero]
        simp [List.getD] at hv ⊢
        simp [hv]
      · simp [List.getD] at hv ⊢
        simp [hv]
    | succ c' =>
      have h0 : s.isSkip = true := by simpa using hsk 0 (by omega)
      simp only [List.getD_cons_succ] at hc
      have harith : j0 + (c' + 1) = (j0 + 1) + c' := by omega
      rw [harith]
      simp only [matvecRow, h0, if_true]
      exact ih c' i xs (j0 + 1) hc
        (fun d hd => by simpa using hsk (d + 1) (by omega))

/-- C2: for a `block_mat` whose row `i` holds the scalar 1 at (i,i) and
None or the scalar 0 in every other slot of that row, a successful matvec
has `x[i]` itself at output position `i` (no copy, no multiply); the
identity case is dispatched before the generic scalar-multiply path, its
contribution being the input block unchanged. -/
theorem c2_identity_row_matvec :
    (∀ (rows : List (List Operand)) (xs : List Operand) (i : Nat) (y : List Operand),
      slotAt rows i i = .scalar 1 →
      (∀ j, j ≠ i → (slotAt rows i j).isSkip = true) →
      block_mat_matvec rows xs = .ok (some y) →
      y.getD i Operand.empty = xs.getD i Operand.empty) ∧
    (∀ xj, matvecZ (.scalar 1) xj = .ok (some xj)) := by
  constructor
  · intro rows xs i y h1 hsk hmv
    have hi : i < rows.length := by
      by_contra hge
      have hrow : rows.getD i [] = [] := List.getD_eq_default _ _ (by omega)
      rw [slotAt, hrow] at h1
      simp [List.getD] at h1
    obtain ⟨hylen, hk⟩ := matvecRows_ok rows xs 0 y hmv
    have hrow := hk i hi
    rw [Nat.zero_add] at hrow
    rw [matvecRow_identity_row (rows.getD i []) i i xs 0 h1 (fun d hd => hsk d hd)] at hrow
    by_cases hv : (xs.getD (0 + i) Operand.empty).vecLike
    · rw [if_pos hv] at hrow
      simp at hrow
      simpa using hrow.symm
    · rw [if_neg hv] at hrow
      exact absurd hrow (by simp)
  · intro xj
    simp [matvecZ, Operand.isOne]

/-- C5: if two non-skipped slots of one row produce vector contributions
of differing lengths, `block_mat.matvec` never returns a result vector;
at the point where the clash is detected it raises the hard
dimension-mismatch error whose message names the block position (i,j) and
the two lengths. -/
theorem c5_dimension_mismatch :
    (∀ (rows : List (List Operand)) (xs : List Operand) (i j1 j2 : Nat) (z1 z2 : Operand),
      (slotAt rows i j1).isSkip = false →
      matvecZ (slotAt rows i j1) (xs.getD j1 Operand.empty) = .ok (some z1) →
      (slotAt rows i j2).isSkip = false →
      matvecZ (slotAt rows i j2) (xs.getD j2 Operand.empty) = .ok (some z2) →
      z1.opLen ≠ z2.opLen →
      ∀ y, block_mat_matvec rows xs ≠ .ok (some y)) ∧
    (∀ (i : Nat) (xs : List Operand) (s : Operand) (rest : List Operand) (j : Nat) (yi z : Operand),
      s.isSkip = false →
      matvecZ s (xs.getD j Operand.empty) = .ok (some z) →
      z.vecLike = true → yi.isEmptyOp = false → z.opLen ≠ yi.opLen →
      matvecRow i xs (s :: rest) j yi =
        .error (.incompatibleBlock i j z.opLen yi.opLen) ∧
      RtErr.message (.incompatibleBlock i j z.opLen yi.opLen) =
        "incompatible dimensions in block (" ++ toString i ++ "," ++ toString j ++ ") -- "
          ++ toString z.opLen ++ ", was " ++ toString yi.opLen) := by
  constructor
  · intro rows xs i j1 j2 z1 z2 hs1 hz1 hs2 hz2 hne y hmv
    have hi : i < rows.length := by
      by_contra hge
      have hrow : rows.getD i [] = [] := List.getD_eq_default _ _ (by omega)
      rw [slotAt, hrow] at hs1
      simp [List.getD, Operand.isSkip] at hs1
    obtain ⟨-, hk⟩ := matvecRows_ok rows xs 0 y hmv
    have hrow := hk i hi
    rw [Nat.zero_add] at hrow
    obtain ⟨-, hl1⟩ := matvecRow_ok_contrib _ i xs 0 _ _ hrow j1 z1 hs1
      (by simpa [slotAt, List.getD] using hz1)
    obtain ⟨-, hl2⟩ := matvecRow_ok_contrib _ i xs 0 _ _ hrow j2 z2 hs2
      (by simpa [slotAt, List.getD] using hz2)
    exact hne (hl1.trans hl2.symm)
  · intro i xs s rest j yi z hs hz hv hyine hlen
    refine ⟨?_, rfl⟩
    have hz2 : matvecZ s (xs[j]?.getD Operand.empty) = .ok (some z) := by
      simpa [List.getD] using hz
    simp [matvecRow, hs, hz2, hv, hyine, hlen]

/-- C10: if a non-skipped slot's computed contribution is neither a
concrete vector nor a block vector, `block_mat.matvec` never returns a
result vector — the row processing raises the hard unexpected-result error
whose message ends by suggesting `create_vec()` or `allocate()`. -/
theorem c10_nonvector_contribution :
    (∀ (rows : List (List Operand)) (xs : List Operand) (i j : Nat) (z : Operand),
      (slotAt rows i j).isSkip = false →
      matvecZ (slotAt rows i j) (xs.getD j Operand.empty) = .ok (some z) →
      z.vecLike = false →
      ∀ y, block_mat_matvec rows xs ≠ .ok (some y)) ∧
    (∀ (i : Nat) (xs : List Operand) (s : Operand) (rest : List Operand) (j : Nat) (yi z : Operand),
      s.isSkip = false →
      matvecZ s (xs.getD j Operand.empty) = .ok (some z) →
      z.vecLike = false →
      matvecRow i xs (s :: rest) j yi = .error (.unexpectedResult z.kindOf) ∧
      ∃ p, RtErr.message (.unexpectedResult z.kindOf) = p ++ "use create_vec() or allocate()") := by
  constructor
  · intro rows xs i j z hs hz hnv y hmv
    have hi : i < rows.length := by
      by_contra hge
      have hrow : rows.getD i [] = [] := List.getD_eq_default _ _ (by omega)
      rw [slotAt, hrow] at hs
      simp [List.getD, Operand.isSkip] at hs
    obtain ⟨-, hk⟩ := matvecRows_ok rows xs 0 y hmv
    have hrow := hk i hi
    rw [Nat.zero_add] at hrow
    obtain ⟨hvl, -⟩ := matvecRow_ok_contrib _ i xs 0 _ _ hrow j z hs
      (by simpa [slotAt, List.getD] using hz)
    rw [hnv] at hvl
    exact Bool.noConfusion hvl
  · intro i xs s rest j yi z hs hz hnv
    refine ⟨?_, ⟨"unexpected result in matvec, " ++ z.kindOf ++
      " -- possibly because RHS contains scalars instead of vectors, ", rfl⟩⟩
    have hz2 : matvecZ s (xs[j]?.getD Operand.empty) = .ok (some z) := by
      simpa [List.getD] using hz
    simp [matvecRow, hs, hz2, hnv]

/-- Witness for C2 at a concrete 2-by-2 identity block matrix. -/
theorem c2_identity_row_matvec_witness :
    slotAt ([[.scalar 1, .empty], [.empty, .scalar 1]] : List (List Operand)) 0 0 = .scalar 1 ∧
    (∀ j, j ≠ 0 →
      (slotAt ([[.scalar 1, .empty], [.empty, .scalar 1]] : List (List Operand)) 0 j).isSkip = true) ∧
    block_mat_matvec [[.scalar 1, .empty], [.empty, .scalar 1]] [.vec [1, 2], .vec [3]] =
      .ok (some [.vec [1, 2], .vec [3]]) ∧
    ([Operand.vec [1, 2], Operand.vec [3]].getD 0 Operand.empty =
      [Operand.vec [1, 2], Operand.vec [3]].getD 0 Operand.empty) := by
  have hA : slotAt ([[.scalar 1, .empty], [.empty, .scalar 1]] : List (List Operand)) 0 0
      = .scalar 1 := by
    simp [slotAt, List.getD]
  have hB : ∀ j, j ≠ 0 →
      (slotAt ([[.scalar 1, .empty], [.empty, .scalar 1]] : List (List Operand)) 0 j).isSkip
        = true := by
    intro j hj
    match j, hj with
    | j' + 1, _ =>
      cases j' with
      | zero => simp [slotAt, List.getD, Operand.isSkip]
      | succ j'' =>
        rw [slotAt]
        have h2 : (([[Operand.scalar 1, Operand.empty],
            [Operand.empty, Operand.scalar 1]] : List (List Operand)).getD 0 []) =
            [Operand.scalar 1, Operand.empty] := by simp [List.getD]
        rw [h2, List.getD_eq_default _ _ (by simp only [List.length_cons, List.length_nil]; omega)]
        simp [Operand.isSkip]
  have hmv : block_mat_matvec [[.scalar 1, .empty], [.empty, .scalar 1]]
      [.vec [1, 2], .vec [3]] = .ok (some [.vec [1, 2], .vec [3]]) := by
    simp [block_mat_matvec, matvecRows, matvecRow, matvecZ, Operand.isSkip, Operand.isOne,
      Operand.vecLike, Operand.isEmptyOp, List.getD]
  exact ⟨hA, hB, hmv, c2_identity_row_matvec.1 _ _ 0 _ hA hB hmv⟩

/-- Witness for C5 at a concrete one-row block matrix whose two operator
slots produce contributions of lengths 2 and 1. -/
theorem c5_dimension_mismatch_witness :
    (slotAt ([[.epmat [[1], [1]] false, .epmat [[1]] false]] : List (List Operand)) 0 0).isSkip
      = false ∧
    matvecZ (slotAt ([[.epmat [[1], [1]] false, .epmat [[1]] false]] : List (List Operand)) 0 0)
      ([Operand.vec [4], Operand.vec [6]].getD 0 Operand.empty) = .ok (some (.vec [4, 4])) ∧
    (slotAt ([[.epmat [[1], [1]] false, .epmat [[1]] false]] : List (List Operand)) 0 1).isSkip
      = false ∧
    matvecZ (slotAt ([[.epmat [[1], [1]] false, .epmat [[1]] false]] : List (List Operand)) 0 1)
      ([Operand.vec [4], Operand.vec [6]].getD 1 Operand.empty) = .ok (some (.vec [6])) ∧
    (Operand.vec [4, 4]).opLen ≠ (Operand.vec [6]).opLen ∧
    block_mat_matvec [[.epmat [[1], [1]] false, .epmat [[1]] false]] [.vec [4], .vec [6]] ≠
      .ok (some []) ∧
    matvecRow 0 [Operand.vec [4], Operand.vec [6]] [.epmat [[1]] false] 1 (.vec [4, 4]) =
      .error (.incompatibleBlock 0 1 1 2) := by
  have h1 : (slotAt ([[.epmat [[1], [1]] false, .epmat [[1]] false]] : List (List Operand))
      0 0).isSkip = false := by
    simp [slotAt, List.getD, Operand.isSkip]
  have h2 : matvecZ (slotAt ([[.epmat [[1], [1]] false, .epmat [[1]] false]] :
      List (List Operand)) 0 0) ([Operand.vec [4], Operand.vec [6]].getD 0 Operand.empty) =
      .ok (some (.vec [4, 4])) := by
    simp [slotAt, List.getD, matvecZ, Operand.isOne, opMul, Operand.vecLike, ncols, effMat,
      matApply, dotProd]
  have h3 : (slotAt ([[.epmat [[1], [1]] false, .epmat [[1]] false]] : List (List Operand))
      0 1).isSkip = false := by
    simp [slotAt, List.getD, Operand.isSkip]
  have h4 : matvecZ (slotAt ([[.epmat [[1], [1]] false, .epmat [[1]] false]] :
      List (List Operand)) 0 1) ([Operand.vec [4], Operand.vec [6]].getD 1 Operand.empty) =
      .ok (some (.vec [6])) := by
    simp [slotAt, List.getD, matvecZ, Operand.isOne, opMul, Operand.vecLike, ncols, effMat,
      matApply, dotProd]
  have h5 : (Operand.vec [4, 4]).opLen ≠ (Operand.vec [6]).opLen := by
    simp [Operand.opLen]
  have h6 : matvecZ (.epmat [[1]] false)
      ([Operand.vec [4], Operand.vec [6]].getD 1 Operand.empty) = .ok (some (.vec [6])) := by
    simp [List.getD, matvecZ, Operand.isOne, opMul, Operand.vecLike, ncols, effMat,
      matApply, dotProd]
  have h7 : (Operand.epmat [[1]] false).isSkip = false := by simp [Operand.isSkip]
  have h8 : (Operand.vec [6]).vecLike = true := by simp [Operand.vecLike]
  have h9 : (Operand.vec [4, 4]).isEmptyOp = false := by simp [Operand.isEmptyOp]
  have h10 : (Operand.vec [6]).opLen ≠ (Operand.vec [4, 4]).opLen := by simp [Operand.opLen]
  refine ⟨h1, h2, h3, h4, h5,
    c5_dimension_mismatch.1 _ _ 0 0 1 _ _ h1 h2 h3 h4 h5 [], ?_⟩
  have := (c5_dimension_mismatch.2 0 [Operand.vec [4], Operand.vec [6]]
    (.epmat [[1]] false) [] 1 (.vec [4, 4]) (.vec [6]) h7 h6 h8 h9 h10).1
  simpa [Operand.opLen] using this

/-- Witness for C10: a scalar slot times a scalar (unallocated) right-hand
side slot yields a scalar contribution, and matvec raises. -/
theorem c10_nonvector_contribution_witness :
    (slotAt ([[.scalar 2]] : List (List Operand)) 0 0).isSkip = false ∧
    matvecZ (slotAt ([[.scalar 2]] : List (List Operand)) 0 0)
      ([Operand.scalar 3].getD 0 Operand.empty) = .ok (some (.scalar 6)) ∧
    (Operand.scalar 6).vecLike = false ∧
    block_mat_matvec [[.scalar 2]] [.scalar 3] ≠ .ok (some []) ∧
    matvecRow 0 [Operand.scalar 3] [.scalar 2] 0 Operand.empty =
      .error (.unexpectedResult "int") := by
  have h1 : (slotAt ([[.scalar 2]] : List (List Operand)) 0 0).isSkip = false := by
    simp [slotAt, List.getD, Operand.isSkip]
  have h2 : matvecZ (slotAt ([[.scalar 2]] : List (List Operand)) 0 0)
      ([Operand.scalar 3].getD 0 Operand.empty) = .ok (some (.scalar 6)) := by
    simp [slotAt, List.getD, matvecZ, Operand.isOne, opMul]
  have h3 : (Operand.scalar 6).vecLike = false := by simp [Operand.vecLike]
  have h4 : (Operand.scalar 2).isSkip = false := by simp [Operand.isSkip]
  have h5 : matvecZ (.scalar 2) ([Operand.scalar 3].getD 0 Operand.empty) =
      .ok (some (.scalar 6)) := by
    simp [List.getD, matvecZ, Operand.isOne, opMul]
  refine ⟨h1, h2, h3, c10_nonvector_contribution.1 _ _ 0 0 _ h1 h2 h3 [], ?_⟩
  have := (c10_nonvector_contribution.2 0 [Operand.scalar 3] (.scalar 2) [] 0
    Operand.empty (.scalar 6) h4 h5 h3).1
  simpa [Operand.kindOf] using this
